import Mathlib

/-!
# Verification of the stellar-keystone RBAC event indexer

Shallow embedding of the indexer (`indexer/src/index.ts`, the `RbacIndexer`
class) and its query utilities (`indexer/src/query.ts`).

Modelling conventions:
* SQLite tables with a UNIQUE key are modelled as association lists from the
  unique key to the remaining columns; the surrogate AUTOINCREMENT `id`
  column is not modelled (no query in the repository reads it).
  `INSERT OR REPLACE` is an upsert, `UPDATE ... WHERE key` maps over the
  matching rows, `DELETE ... WHERE key` filters them out.  The append-only
  `events` table is a plain list in insertion order.
* Each `better-sqlite3` statement auto-commits individually; the code opens
  no explicit transaction.  `better-sqlite3` rejects a JavaScript
  `undefined` bind value by throwing, so a statement that binds a missing
  optional field has no effect on the database; such statements are
  modelled as the identity on the state (the surrounding try/catch in
  `processEvent` swallows the exception).
* Environmental failures (a storage write throwing, the RPC fetch
  throwing) are modelled by explicit fault/outcome parameters threaded
  through the functions that the source wraps in try/catch.
* JavaScript numbers holding epoch seconds and expiry values are `Int`;
  ledger sequence numbers are `Nat`.
-/

namespace Keystone

/-! ## Association-list primitives modelling the SQL statements -/

/-- Lookup of the row with the given unique key (`SELECT ... WHERE key = ?`). -/
def lookupAssoc {α β : Type} [DecidableEq α] (k : α) : List (α × β) → Option β
  | [] => none
  | (k2, v) :: rest => if k2 = k then some v else lookupAssoc k rest

/-- `INSERT OR REPLACE` on a table with a UNIQUE key: replace the existing
row in place, or append a fresh row. -/
def upsertAssoc {α β : Type} [DecidableEq α] (k : α) (v : β) : List (α × β) → List (α × β)
  | [] => [(k, v)]
  | (k2, v2) :: rest => if k2 = k then (k, v) :: rest else (k2, v2) :: upsertAssoc k v rest

/-- `DELETE ... WHERE key = ?`: remove every row with the key. -/
def deleteAssoc {α β : Type} [DecidableEq α] (k : α) : List (α × β) → List (α × β)
  | [] => []
  | (k2, v) :: rest => if k2 = k then deleteAssoc k rest else (k2, v) :: deleteAssoc k rest

/-- `UPDATE ... SET ... WHERE key = ?`: rewrite every row with the key. -/
def updateAssoc {α β : Type} [DecidableEq α] (k : α) (f : β → β) : List (α × β) → List (α × β)
  | [] => []
  | (k2, v) :: rest =>
      if k2 = k then (k2, f v) :: updateAssoc k f rest else (k2, v) :: updateAssoc k f rest

/-! ## Native values

`scValToNative` output as it reaches the parser.  The RBAC contract's event
payloads are scalars or flat tuples of scalars, so one nesting level
suffices. -/

/-- A native scalar decoded from an `ScVal`. -/
inductive Scalar : Type
  | str (s : String)
  | num (n : Int)
deriving DecidableEq, Repr

/-- A decoded event `value` payload: a scalar or a flat vector of scalars. -/
inductive NativeVal : Type
  | str (s : String)
  | num (n : Int)
  | arr (elems : List Scalar)
deriving DecidableEq, Repr

/-- JavaScript `String(x)` on a native scalar. -/
def jsStringScalar : Scalar → String
  | .str s => s
  | .num n => toString n

/-- JavaScript `String(x)` on a native value; arrays join their elements
with commas. -/
def jsString : NativeVal → String
  | .str s => s
  | .num n => toString n
  | .arr xs => String.intercalate "," (xs.map jsStringScalar)

/-- JavaScript `Number(x)` on a scalar; `none` stands for `NaN`.
`Number("") = 0`; a non-numeric string is `NaN` (approximated by
`String.toInt?`). -/
def jsNumberScalar : Scalar → Option Int
  | .num n => some n
  | .str s => if s = "" then some 0 else s.toInt?

/-- JavaScript `Number(x)` on a native value; `none` stands for `NaN`.
`Number([]) = 0` and `Number([x]) = Number(x)`; longer arrays are `NaN`. -/
def jsNumber : NativeVal → Option Int
  | .num n => some n
  | .str s => if s = "" then some 0 else s.toInt?
  | .arr [] => some 0
  | .arr [v] => jsNumberScalar v
  | .arr (_ :: _ :: _) => none

/-! ## Raw events and parsed events -/

/-- One raw record of `SorobanRpc.Api.EventResponse` as the parser consumes
it: the topics after `scValToNative` and JavaScript string coercion, the
decoded value payload, the event id (used as the transaction hash) and the
`parseInt`-ed close timestamp.  `decodeOk = false` models the case in which
`scValToNative` throws on a topic or the value, which the parser's catch
turns into `null`. -/
structure RawEvent : Type where
  topics : List String
  value : NativeVal
  id : String
  ledgerClosedAt : Option Int
  decodeOk : Bool
deriving Repr

/-- The `ParsedEvent` interface of the indexer source. -/
structure ParsedEvent : Type where
  contractId : String
  eventType : String
  role : String
  account : Option String
  expiry : Option Int
  adminRole : Option String
  previousAdmin : Option String
  newAdmin : Option String
  txHash : String
  ledgerTimestamp : Int
deriving DecidableEq, Repr

/-- The fixed abbreviation table of `parseEvent` mapping short event names
to full names. -/
def typeMap (tag : String) : Option String :=
  if tag = "RoleCreat" then some "RoleCreated"
  else if tag = "RoleGrant" then some "RoleGranted"
  else if tag = "RoleRevok" then some "RoleRevoked"
  else if tag = "AdminChg" then some "RoleAdminChanged"
  else if tag = "RoleExpir" then some "RoleExpired"
  else none

/-- `String(topics[0])`: JavaScript renders a missing entry as
`"undefined"`. -/
def topic0Str (ev : RawEvent) : String :=
  match ev.topics.get? 0 with
  | some s => s
  | none => "undefined"

/-- `RbacIndexer.parseEvent`.  `now` models `Date.now()/1000`, the fallback
timestamp when `ledgerClosedAt` is absent.  Returns `none` exactly on the
catch path (a topic or value that fails to decode). -/
def parseEvent (contractId : String) (ev : RawEvent) (now : Int) : Option ParsedEvent :=
  if !ev.decodeOk then none
  else
    let eventType := match typeMap (topic0Str ev) with
      | some t => t
      | none => topic0Str ev
    let role := match ev.topics.get? 1 with
      | some s => s
      | none => ""
    let account := match ev.topics.get? 2 with
      | some s => if s = "" then none else some s
      | none => none
    let adminRole := if eventType = "RoleCreated" then some (jsString ev.value) else none
    let expiry :=
      if eventType = "RoleGranted" then
        match ev.value with
        | .arr (Scalar.num n :: _) => some n
        | _ => none
      else if eventType = "RoleExpired" then jsNumber ev.value
      else none
    let previousAdmin :=
      if eventType = "RoleAdminChanged" then
        match ev.value with
        | .arr xs =>
            some (match xs.get? 0 with
              | some v => jsStringScalar v
              | none => "undefined")
        | _ => none
      else none
    let newAdmin :=
      if eventType = "RoleAdminChanged" then
        match ev.value with
        | .arr xs =>
            some (match xs.get? 1 with
              | some v => jsStringScalar v
              | none => "undefined")
        | _ => none
      else none
    some { contractId := contractId, eventType := eventType, role := role,
           account := account, expiry := expiry, adminRole := adminRole,
           previousAdmin := previousAdmin, newAdmin := newAdmin,
           txHash := ev.id,
           ledgerTimestamp := match ev.ledgerClosedAt with
             | some t => t
             | none => now }

/-! ## Database state -/

/-- A row of `roles` beyond its unique key `(contract_id, role)`. -/
structure RoleRow : Type where
  admin_role : Option String
  created_at : Int
deriving DecidableEq, Repr

/-- A row of `role_members` beyond its unique key
`(contract_id, role, account)`. -/
structure MemberRow : Type where
  expiry : Int
  last_updated : Int
deriving DecidableEq, Repr

/-- A row of the append-only `events` audit table; `payload` stands for the
`JSON.stringify` of the parsed event. -/
structure EventRow : Type where
  contract_id : String
  event_type : String
  payload : ParsedEvent
  tx_hash : String
  created_at : Int
deriving DecidableEq, Repr

/-- The `roles` table keyed by `UNIQUE(contract_id, role)`. -/
abbrev RolesTable := List ((String × String) × RoleRow)

/-- The `role_members` table keyed by `UNIQUE(contract_id, role, account)`. -/
abbrev MembersTable := List ((String × String × String) × MemberRow)

/-- The SQLite database: derived tables, audit log, and the
`indexer_state` key/value table holding the per-contract checkpoints. -/
structure DBState : Type where
  roles : RolesTable
  members : MembersTable
  events : List EventRow
  indexer_state : List (String × String)
deriving DecidableEq, Repr

/-- A freshly initialised database. -/
def dbEmpty : DBState := ⟨[], [], [], []⟩

/-- Decimal digit value of a character, when it is one. -/
def digitVal (c : Char) : Option Nat :=
  if 48 ≤ c.toNat ∧ c.toNat ≤ 57 then some (c.toNat - 48) else none

/-- Accumulate the longest leading run of decimal digits. -/
def parseIntAux : List Char → Nat → Nat
  | [], acc => acc
  | c :: cs, acc =>
      match digitVal c with
      | some d => parseIntAux cs (acc * 10 + d)
      | none => acc

/-- `parseInt(s, 10)` on the stored checkpoint strings: the longest leading
run of decimal digits, `none` (`NaN`) when the string does not start with a
digit.  (JavaScript's whitespace/sign handling is irrelevant here: the only
stored values are canonical decimal numerals.) -/
def parseIntDec (s : String) : Option Nat :=
  match s.data with
  | [] => none
  | c :: cs =>
      match digitVal c with
      | some d => some (parseIntAux cs d)
      | none => none

/-- `RbacIndexer.getLastIndexedLedger`: read `last_ledger_<contract>` from
`indexer_state` and `parseInt` it. -/
def getLastIndexedLedger (contractId : String) (db : DBState) : Option Nat :=
  (lookupAssoc ("last_ledger_" ++ contractId) db.indexer_state).bind parseIntDec

/-- `RbacIndexer.setLastIndexedLedger`: `INSERT OR REPLACE` the stringified
ledger under `last_ledger_<contract>`. -/
def setLastIndexedLedger (contractId : String) (ledger : Nat) (db : DBState) : DBState :=
  { db with indexer_state :=
      upsertAssoc ("last_ledger_" ++ contractId) (toString ledger) db.indexer_state }

/-- The `startLedger` computation of `pollContract`
(`lastLedger ? lastLedger + 1 : 1`, with JavaScript truthiness: a stored
`0` is falsy). -/
def startLedgerOf (lastLedger : Option Nat) : Nat :=
  match lastLedger with
  | some l => if l = 0 then 1 else l + 1
  | none => 1

/-! ## The projector: storeEvent and the five handlers -/

/-- The `events` row inserted by `storeEvent` for a parsed event. -/
def eventRowOf (e : ParsedEvent) : EventRow :=
  ⟨e.contractId, e.eventType, e, e.txHash, e.ledgerTimestamp⟩

/-- `RbacIndexer.storeEvent`: append one audit row (plain `INSERT`). -/
def storeEvent (e : ParsedEvent) (db : DBState) : DBState :=
  { db with events := db.events ++ [eventRowOf e] }

/-- `RbacIndexer.handleRoleCreated`: `INSERT OR REPLACE INTO roles`.
A missing `adminRole` is an `undefined` bind, which `better-sqlite3`
rejects by throwing, leaving the table unchanged. -/
def handleRoleCreated (e : ParsedEvent) (db : DBState) : DBState :=
  match e.adminRole with
  | none => db
  | some ar =>
      { db with roles :=
          upsertAssoc (e.contractId, e.role) ⟨some ar, e.ledgerTimestamp⟩ db.roles }

/-- `RbacIndexer.handleRoleGranted`: `INSERT OR REPLACE INTO role_members`
with `expiry ?? 0`.  A missing `account` is an `undefined` bind, which
throws and leaves the table unchanged. -/
def handleRoleGranted (e : ParsedEvent) (db : DBState) : DBState :=
  match e.account with
  | none => db
  | some acct =>
      { db with members :=
          (upsertAssoc (e.contractId, e.role, acct)
            ⟨(match e.expiry with | some x => x | none => 0), e.ledgerTimestamp⟩ db.members) }

/-- `RbacIndexer.handleRoleRevoked`: `DELETE FROM role_members` for the key.
A missing `account` bind throws, leaving the table unchanged. -/
def handleRoleRevoked (e : ParsedEvent) (db : DBState) : DBState :=
  match e.account with
  | none => db
  | some acct =>
      { db with members := deleteAssoc (e.contractId, e.role, acct) db.members }

/-- `RbacIndexer.handleRoleAdminChanged`: `UPDATE roles SET admin_role`
for the key; rows that do not exist are simply not matched.  A missing
`newAdmin` bind throws, leaving the table unchanged. -/
def handleRoleAdminChanged (e : ParsedEvent) (db : DBState) : DBState :=
  match e.newAdmin with
  | none => db
  | some na =>
      { db with roles :=
          (updateAssoc (e.contractId, e.role)
            (fun r => { r with admin_role := some na }) db.roles) }

/-- `RbacIndexer.handleRoleExpired`: `DELETE FROM role_members` for the key,
identical to the revoke handler at the projection layer. -/
def handleRoleExpired (e : ParsedEvent) (db : DBState) : DBState :=
  match e.account with
  | none => db
  | some acct =>
      { db with members := deleteAssoc (e.contractId, e.role, acct) db.members }

/-- The `switch (parsed.eventType)` of `processEvent`, written as the
equivalent chain of equality tests; unmatched types fall through with no
state change. -/
def applyHandler (e : ParsedEvent) (db : DBState) : DBState :=
  if e.eventType = "RoleCreated" then handleRoleCreated e db
  else if e.eventType = "RoleGranted" then handleRoleGranted e db
  else if e.eventType = "RoleRevoked" then handleRoleRevoked e db
  else if e.eventType = "RoleAdminChanged" then handleRoleAdminChanged e db
  else if e.eventType = "RoleExpired" then handleRoleExpired e db
  else db

/-! ## processEvent with fault injection

`processEvent` wraps parse, store and handle in one try/catch.  The two
statements auto-commit separately, so a throw between them leaves the
audit row committed.  `EventFaults` says which of the two statements the
storage layer makes throw. -/

/-- Fault injection for one `processEvent` call: whether the `storeEvent`
insert throws, and whether the handler's statement throws. -/
structure EventFaults : Type where
  storeFails : Bool
  handlerFails : Bool
deriving DecidableEq, Repr

/-- No storage faults. -/
def noFaults : EventFaults := ⟨false, false⟩

/-- `RbacIndexer.processEvent` under a fault assignment.  A throw at any
point is caught by the surrounding catch; statements already committed
stay committed. -/
def processEventF (contractId : String) (now : Int) (ev : RawEvent)
    (f : EventFaults) (db : DBState) : DBState :=
  match parseEvent contractId ev now with
  | none => db
  | some p =>
      if f.storeFails then db
      else
        let db1 := storeEvent p db
        if f.handlerFails then db1
        else applyHandler p db1

/-- `RbacIndexer.processEvent` on a healthy storage layer. -/
def processEvent (contractId : String) (now : Int) (ev : RawEvent) (db : DBState) : DBState :=
  processEventF contractId now ev noFaults db

/-! ## The poller -/

/-- The part of a successful `server.getEvents` response that
`pollContract` reads: the page of raw events and the source's
`latestLedger`. -/
structure Page : Type where
  events : List RawEvent
  latestLedger : Option Nat

/-- Outcome of the awaited `server.getEvents` call: a page, or a thrown
error.  `notFound` records whether the error message contains
`'not found'`, which `pollContract`'s catch swallows. -/
inductive FetchResult : Type
  | ok (page : Page)
  | fail (notFound : Bool)

/-- The environment of one `pollContract` invocation: the fetch outcome,
the storage faults for the i-th event of the page, and whether the
checkpoint write (`setLastIndexedLedger`) throws. -/
structure PollEnv : Type where
  fetch : FetchResult
  faults : Nat → EventFaults
  chkFails : Bool

/-- The `for (const event of response.events)` loop of `pollContract`:
process each event in order, under the per-position fault assignment. -/
def applyPage (contractId : String) (now : Int) (evs : List RawEvent)
    (faults : Nat → EventFaults) (db : DBState) : DBState :=
  match evs with
  | [] => db
  | e :: rest =>
      applyPage contractId now rest (fun i => faults (i + 1))
        (processEventF contractId now e (faults 0) db)

/-- Result of one `pollContract` call: whether it threw (after the catch
that swallows `'not found'` errors), and the database afterwards —
auto-committed statements persist even when a later statement throws. -/
structure PollResult : Type where
  threw : Bool
  db : DBState

/-- `RbacIndexer.pollContract` under an environment.  On a successful
fetch the whole page is processed (per-event errors are caught inside
`processEvent`), and afterwards the checkpoint is set to the response's
`latestLedger` when one is reported.  A fetch error whose message contains
`'not found'` is swallowed; any other throw propagates to the caller. -/
def pollContractF (contractId : String) (now : Int) (env : PollEnv) (db : DBState) : PollResult :=
  match env.fetch with
  | .fail nf => ⟨!nf, db⟩
  | .ok page =>
      let db1 := applyPage contractId now page.events env.faults db
      match page.latestLedger with
      | some l => if env.chkFails then ⟨true, db1⟩ else ⟨false, setLastIndexedLedger contractId l db1⟩
      | none => ⟨false, db1⟩

/-- The backoff of `pollWithRetry` before retrying after a failed attempt:
`1000 * Math.pow(2, attempt - 1)` milliseconds. -/
def backoffMs (attempt : Nat) : Nat := 1000 * 2 ^ (attempt - 1)

/-- Result of `pollWithRetry`: the final database, how many `pollContract`
attempts ran, and the backoff sleeps performed between attempts. -/
structure RetryResult : Type where
  db : DBState
  attempts : Nat
  backoffs : List Nat
deriving DecidableEq, Repr

/-- The `for (let attempt = 1; attempt <= maxRetries; attempt++)` loop of
`pollWithRetry`; `remaining` counts the attempts still allowed
(`maxRetries - attempt + 1`).  A successful attempt returns; a failed last
attempt only logs; otherwise the loop sleeps `backoffMs attempt` and
retries the whole `pollContract` on the state the failed attempt left
behind.  The attempt with number `attempt` takes its environment from
`envs attempt`. -/
def pollRetryLoop (contractId : String) (now : Int) (envs : Nat → PollEnv) :
    Nat → Nat → DBState → RetryResult
  | attempt, 0, db => ⟨db, attempt - 1, []⟩
  | attempt, remaining + 1, db =>
      let r := pollContractF contractId now (envs attempt) db
      if r.threw then
        if remaining = 0 then ⟨r.db, attempt, []⟩
        else
          let rest := pollRetryLoop contractId now envs (attempt + 1) remaining r.db
          ⟨rest.db, rest.attempts, backoffMs attempt :: rest.backoffs⟩
      else ⟨r.db, attempt, []⟩

/-- `RbacIndexer.pollWithRetry` (source default `maxRetries = 3`).  It
never throws: retries exhausted are logged and the contract is skipped for
this cycle. -/
def pollWithRetryF (contractId : String) (now : Int) (envs : Nat → PollEnv)
    (db : DBState) (maxRetries : Nat) : RetryResult :=
  pollRetryLoop contractId now envs 1 maxRetries db

/-! ## Runs and audit-log replay -/

/-- One `processEvent` invocation's inputs as the poller issues them. -/
structure ProcInput : Type where
  contractId : String
  now : Int
  ev : RawEvent

/-- A fault-free run of the indexer's event processing from a given state:
`processEvent` folded over the inputs in order. -/
def runEvents (inputs : List ProcInput) (db : DBState) : DBState :=
  inputs.foldl (fun d i => processEvent i.contractId i.now i.ev d) db

/-- Replay of the audit log: fold the projector's per-kind handlers over
the logged payloads in creation order, starting from empty derived
tables. -/
def replayAudit (rows : List EventRow) : DBState :=
  rows.foldl (fun d r => applyHandler r.payload d) dbEmpty

/-! ## The query layer (query.ts) -/

/-- The expiry classification of `listMembers`:
`member.expiry !== 0 && member.expiry < now`. -/
def isExpired (expiry now : Int) : Bool :=
  expiry != 0 && expiry < now

/-- The status string `listMembers` prints for a membership (the source
prefixes warning/check marks). -/
def memberStatus (expiry now : Int) : String :=
  if isExpired expiry now then "EXPIRED" else "Active"

/-! ## Association-list lemmas -/

theorem lookupAssoc_upsert {α β : Type} [DecidableEq α] (k : α) (v : β) (l : List (α × β)) :
    lookupAssoc k (upsertAssoc k v l) = some v := by
  induction l with
  | nil => simp [upsertAssoc, lookupAssoc]
  | cons hd tl ih =>
      obtain ⟨k2, v2⟩ := hd
      by_cases h : k2 = k <;> simp [upsertAssoc, lookupAssoc, h, ih]

theorem upsertAssoc_idem {α β : Type} [DecidableEq α] (k : α) (v : β) (l : List (α × β)) :
    upsertAssoc k v (upsertAssoc k v l) = upsertAssoc k v l := by
  induction l with
  | nil => simp [upsertAssoc]
  | cons hd tl ih =>
      obtain ⟨k2, v2⟩ := hd
      by_cases h : k2 = k <;> simp [upsertAssoc, h, ih]

theorem deleteAssoc_idem {α β : Type} [DecidableEq α] (k : α) (l : List (α × β)) :
    deleteAssoc k (deleteAssoc k l) = deleteAssoc k l := by
  induction l with
  | nil => simp [deleteAssoc]
  | cons hd tl ih =>
      obtain ⟨k2, v2⟩ := hd
      by_cases h : k2 = k <;> simp [deleteAssoc, h, ih]

theorem updateAssoc_comp_self {α β : Type} [DecidableEq α] (k : α) (f : β → β)
    (hf : ∀ b, f (f b) = f b) (l : List (α × β)) :
    updateAssoc k f (updateAssoc k f l) = updateAssoc k f l := by
  induction l with
  | nil => simp [updateAssoc]
  | cons hd tl ih =>
      obtain ⟨k2, v2⟩ := hd
      by_cases h : k2 = k <;> simp [updateAssoc, h, ih, hf]

theorem updateAssoc_of_lookup_none {α β : Type} [DecidableEq α] (k : α) (f : β → β)
    (l : List (α × β)) (h : lookupAssoc k l = none) : updateAssoc k f l = l := by
  induction l with
  | nil => simp [updateAssoc]
  | cons hd tl ih =>
      obtain ⟨k2, v2⟩ := hd
      by_cases hk : k2 = k
      · simp [lookupAssoc, hk] at h
      · simp [lookupAssoc, hk] at h
        simp [updateAssoc, hk, ih h]

theorem lookupAssoc_update {α β : Type} [DecidableEq α] (k : α) (f : β → β)
    (l : List (α × β)) :
    lookupAssoc k (updateAssoc k f l) = (lookupAssoc k l).map f := by
  induction l with
  | nil => simp [updateAssoc, lookupAssoc]
  | cons hd tl ih =>
      obtain ⟨k2, v2⟩ := hd
      by_cases h : k2 = k <;> simp [updateAssoc, lookupAssoc, h, ih]

/-! ## Projection lemmas for the projector -/

theorem storeEvent_roles (p : ParsedEvent) (db : DBState) :
    (storeEvent p db).roles = db.roles := rfl

theorem storeEvent_members (p : ParsedEvent) (db : DBState) :
    (storeEvent p db).members = db.members := rfl

theorem storeEvent_events (p : ParsedEvent) (db : DBState) :
    (storeEvent p db).events = db.events ++ [eventRowOf p] := rfl

theorem storeEvent_state (p : ParsedEvent) (db : DBState) :
    (storeEvent p db).indexer_state = db.indexer_state := rfl

/-- The effect of one handler dispatch on the `roles` table alone. -/
def rolesAfter (e : ParsedEvent) (rs : RolesTable) : RolesTable :=
  if e.eventType = "RoleCreated" then
    match e.adminRole with
    | none => rs
    | some ar => upsertAssoc (e.contractId, e.role) ⟨some ar, e.ledgerTimestamp⟩ rs
  else if e.eventType = "RoleAdminChanged" then
    match e.newAdmin with
    | none => rs
    | some na => updateAssoc (e.contractId, e.role) (fun r => { r with admin_role := some na }) rs
  else rs

/-- The effect of one handler dispatch on the `role_members` table alone. -/
def membersAfter (e : ParsedEvent) (ms : MembersTable) : MembersTable :=
  if e.eventType = "RoleGranted" then
    match e.account with
    | none => ms
    | some acct =>
        upsertAssoc (e.contractId, e.role, acct)
          ⟨(match e.expiry with | some x => x | none => 0), e.ledgerTimestamp⟩ ms
  else if e.eventType = "RoleRevoked" then
    match e.account with
    | none => ms
    | some acct => deleteAssoc (e.contractId, e.role, acct) ms
  else if e.eventType = "RoleExpired" then
    match e.account with
    | none => ms
    | some acct => deleteAssoc (e.contractId, e.role, acct) ms
  else ms

theorem applyHandler_roles (e : ParsedEvent) (db : DBState) :
    (applyHandler e db).roles = rolesAfter e db.roles := by
  cases db
  unfold applyHandler rolesAfter handleRoleCreated handleRoleGranted handleRoleRevoked
    handleRoleAdminChanged handleRoleExpired
  split_ifs <;>
    first
      | rfl
      | (cases e.adminRole <;> rfl)
      | (cases e.account <;> rfl)
      | (cases e.newAdmin <;> rfl)
      | simp_all
      | (cases e.adminRole <;> simp_all)
      | (cases e.account <;> simp_all)
      | (cases e.newAdmin <;> simp_all)

theorem applyHandler_members (e : ParsedEvent) (db : DBState) :
    (applyHandler e db).members = membersAfter e db.members := by
  cases db
  unfold applyHandler membersAfter handleRoleCreated handleRoleGranted handleRoleRevoked
    handleRoleAdminChanged handleRoleExpired
  split_ifs <;>
    first
      | rfl
      | (cases e.adminRole <;> rfl)
      | (cases e.account <;> rfl)
      | (cases e.newAdmin <;> rfl)
      | simp_all
      | (cases e.adminRole <;> simp_all)
      | (cases e.account <;> simp_all)
      | (cases e.newAdmin <;> simp_all)

theorem applyHandler_events (e : ParsedEvent) (db : DBState) :
    (applyHandler e db).events = db.events := by
  cases db
  unfold applyHandler handleRoleCreated handleRoleGranted handleRoleRevoked
    handleRoleAdminChanged handleRoleExpired
  split_ifs <;>
    first
      | rfl
      | (cases e.adminRole <;> rfl)
      | (cases e.account <;> rfl)
      | (cases e.newAdmin <;> rfl)
      | simp_all
      | (cases e.adminRole <;> simp_all)
      | (cases e.account <;> simp_all)
      | (cases e.newAdmin <;> simp_all)

theorem applyHandler_state (e : ParsedEvent) (db : DBState) :
    (applyHandler e db).indexer_state = db.indexer_state := by
  cases db
  unfold applyHandler handleRoleCreated handleRoleGranted handleRoleRevoked
    handleRoleAdminChanged handleRoleExpired
  split_ifs <;>
    first
      | rfl
      | (cases e.adminRole <;> rfl)
      | (cases e.account <;> rfl)
      | (cases e.newAdmin <;> rfl)
      | simp_all
      | (cases e.adminRole <;> simp_all)
      | (cases e.account <;> simp_all)
      | (cases e.newAdmin <;> simp_all)

/-! ## Idempotence of the individual handlers -/

theorem handleRoleCreated_idem (e : ParsedEvent) (db : DBState) :
    handleRoleCreated e (handleRoleCreated e db) = handleRoleCreated e db := by
  cases db
  rcases he : e.adminRole with _ | ar <;> simp [handleRoleCreated, he, upsertAssoc_idem]

theorem handleRoleGranted_idem (e : ParsedEvent) (db : DBState) :
    handleRoleGranted e (handleRoleGranted e db) = handleRoleGranted e db := by
  cases db
  rcases he : e.account with _ | acct <;> simp [handleRoleGranted, he, upsertAssoc_idem]

theorem handleRoleRevoked_idem (e : ParsedEvent) (db : DBState) :
    handleRoleRevoked e (handleRoleRevoked e db) = handleRoleRevoked e db := by
  cases db
  rcases he : e.account with _ | acct <;> simp [handleRoleRevoked, he, deleteAssoc_idem]

theorem handleRoleAdminChanged_idem (e : ParsedEvent) (db : DBState) :
    handleRoleAdminChanged e (handleRoleAdminChanged e db) = handleRoleAdminChanged e db := by
  cases db
  rcases he : e.newAdmin with _ | na
  · simp [handleRoleAdminChanged, he]
  · simp [handleRoleAdminChanged, he]
    exact updateAssoc_comp_self _ _ (fun b => by cases b; rfl) _

theorem handleRoleExpired_idem (e : ParsedEvent) (db : DBState) :
    handleRoleExpired e (handleRoleExpired e db) = handleRoleExpired e db := by
  cases db
  rcases he : e.account with _ | acct <;> simp [handleRoleExpired, he, deleteAssoc_idem]

theorem applyHandler_idem (e : ParsedEvent) (db : DBState) :
    applyHandler e (applyHandler e db) = applyHandler e db := by
  unfold applyHandler
  split_ifs
  · exact handleRoleCreated_idem e db
  · exact handleRoleGranted_idem e db
  · exact handleRoleRevoked_idem e db
  · exact handleRoleAdminChanged_idem e db
  · exact handleRoleExpired_idem e db
  · rfl

/-! ## C2: idempotence of the projector -/

/-- C2: applying a domain event of any of the five kinds twice in immediate
succession yields exactly the same `roles` and `role_members` table
contents as applying it once. -/
theorem projector_idempotent (e : ParsedEvent) (db : DBState)
    (h : e.eventType = "RoleCreated" ∨ e.eventType = "RoleGranted" ∨
      e.eventType = "RoleRevoked" ∨ e.eventType = "RoleAdminChanged" ∨
      e.eventType = "RoleExpired") :
    (applyHandler e (applyHandler e db)).roles = (applyHandler e db).roles ∧
    (applyHandler e (applyHandler e db)).members = (applyHandler e db).members := by
  rw [applyHandler_idem]
  exact ⟨rfl, rfl⟩

/-- A concrete RoleGranted domain event. -/
def sampleGrant : ParsedEvent :=
  ⟨"CONTRACT", "RoleGranted", "MINTER", some "GACCOUNT", some 100, none, none, none, "tx1", 1111⟩

/-- Witness for `projector_idempotent` at a concrete RoleGranted event. -/
theorem projector_idempotent_witness :
    (sampleGrant.eventType = "RoleCreated" ∨ sampleGrant.eventType = "RoleGranted" ∨
      sampleGrant.eventType = "RoleRevoked" ∨ sampleGrant.eventType = "RoleAdminChanged" ∨
      sampleGrant.eventType = "RoleExpired") ∧
    ((applyHandler sampleGrant (applyHandler sampleGrant dbEmpty)).roles =
        (applyHandler sampleGrant dbEmpty).roles ∧
      (applyHandler sampleGrant (applyHandler sampleGrant dbEmpty)).members =
        (applyHandler sampleGrant dbEmpty).members) :=
  ⟨Or.inr (Or.inl rfl),
    projector_idempotent sampleGrant dbEmpty (Or.inr (Or.inl rfl))⟩

/-! ## C9: expiry classification at query time -/

/-- C9: `listMembers` classifies a membership as expired exactly when its
expiry is non-zero and strictly below `now`, and as active otherwise; in
particular `expiry = 0` and `expiry > now` are active, and at the boundary
`expiry = now` the strict comparison fails, so the membership is active. -/
theorem expiry_boundary_classification (expiry now : Int) :
    (memberStatus expiry now = "EXPIRED" ↔ (expiry ≠ 0 ∧ expiry < now)) ∧
    (memberStatus expiry now = "Active" ↔ ¬(expiry ≠ 0 ∧ expiry < now)) ∧
    (expiry = now → memberStatus expiry now = "Active") := by
  unfold memberStatus
  by_cases hb : isExpired expiry now = true
  · rw [if_pos hb]
    have hp : expiry ≠ 0 ∧ expiry < now := by simpa [isExpired] using hb
    refine ⟨by simp [hp.1, hp.2], by simp [hp.1, hp.2], fun he => absurd hp.2 (by omega)⟩
  · rw [if_neg hb]
    have hp : ¬(expiry ≠ 0 ∧ expiry < now) := by simpa [isExpired] using hb
    refine ⟨by simp [hp], by simp [hp], fun he => rfl⟩

/-- Witness for `expiry_boundary_classification`: the boundary `expiry = now`
is classified active, and a strictly past non-zero expiry is expired. -/
theorem expiry_boundary_classification_witness :
    memberStatus 7 7 = "Active" ∧ memberStatus 3 5 = "EXPIRED" :=
  ⟨(expiry_boundary_classification 7 7).2.2 rfl,
    (expiry_boundary_classification 3 5).1.mpr ⟨by decide, by decide⟩⟩

/-! ## C5: RoleCreated on an existing row -/

/-- A concrete RoleCreated domain event (admin `ADMIN_A`, timestamp 10). -/
def c5created : ParsedEvent :=
  ⟨"C", "RoleCreated", "OPERATOR", none, none, some "ADMIN_A", none, none, "tx-c1", 10⟩

/-- A concrete RoleAdminChanged domain event for the same role
(new admin `ADMIN_B`, timestamp 20). -/
def c5adminChg : ParsedEvent :=
  ⟨"C", "RoleAdminChanged", "OPERATOR", none, none, none, some "ADMIN_A", some "ADMIN_B",
    "tx-c2", 20⟩

/-- C5 counterexample: after RoleCreated(admin `ADMIN_A`) and
RoleAdminChanged(new admin `ADMIN_B`), replaying the exact duplicate of the
original RoleCreated resets the row's admin back to `ADMIN_A` — the claim
that a replayed duplicate RoleCreated never alters the admin role is false
(`handleRoleCreated` is an unconditional `INSERT OR REPLACE`). -/
theorem role_created_replay_counterexample :
    lookupAssoc ("C", "OPERATOR")
        (handleRoleAdminChanged c5adminChg (handleRoleCreated c5created dbEmpty)).roles =
      some ⟨some "ADMIN_B", 10⟩ ∧
    lookupAssoc ("C", "OPERATOR")
        (handleRoleCreated c5created
          (handleRoleAdminChanged c5adminChg (handleRoleCreated c5created dbEmpty))).roles =
      some ⟨some "ADMIN_A", 10⟩ :=
  ⟨rfl, rfl⟩

/-- C5 amended: `handleRoleCreated` unconditionally overwrites the
`(contract, role)` row with the event's admin role and ledger timestamp,
whether or not the row already existed; only the immediate re-application
of the *identical* RoleCreated event is a no-op (idempotence), and neither
the created timestamp nor a previously changed admin role survives the
overwrite. -/
theorem role_created_overwrites (e : ParsedEvent) (db : DBState) (ar : String)
    (h : e.adminRole = some ar) :
    lookupAssoc (e.contractId, e.role) (handleRoleCreated e db).roles =
      some ⟨some ar, e.ledgerTimestamp⟩ ∧
    handleRoleCreated e (handleRoleCreated e db) = handleRoleCreated e db := by
  refine ⟨?_, handleRoleCreated_idem e db⟩
  simp [handleRoleCreated, h, lookupAssoc_upsert]

/-- Witness for `role_created_overwrites` at the concrete event. -/
theorem role_created_overwrites_witness :
    c5created.adminRole = some "ADMIN_A" ∧
    lookupAssoc ("C", "OPERATOR") (handleRoleCreated c5created dbEmpty).roles =
      some ⟨some "ADMIN_A", 10⟩ :=
  ⟨rfl, (role_created_overwrites c5created dbEmpty "ADMIN_A" rfl).1⟩

/-! ## C6: RoleAdminChanged on a missing row -/

/-- A concrete RoleAdminChanged domain event for a role with no row. -/
def c6adminChg : ParsedEvent :=
  ⟨"C6", "RoleAdminChanged", "DEPLOYER", none, none, none, some "OLD_ADMIN", some "NEW_ADMIN",
    "tx-c6", 60⟩

/-- C6 counterexample: applying a RoleAdminChanged event when no `roles`
row exists leaves the table empty — no placeholder role row is inserted
(the handler is a plain `UPDATE`, which matches nothing). -/
theorem admin_changed_no_placeholder_counterexample :
    (handleRoleAdminChanged c6adminChg dbEmpty).roles = [] :=
  rfl

/-- C6 amended: `handleRoleAdminChanged` updates the admin role of the
existing `(contract, role)` row to the event's new admin; when the row
does not exist the `UPDATE` matches no row, the database is unchanged and
the admin change is lost — no placeholder row is inserted. -/
theorem admin_changed_update_only (e : ParsedEvent) (db : DBState) (na : String)
    (h : e.newAdmin = some na) :
    (lookupAssoc (e.contractId, e.role) db.roles = none →
      handleRoleAdminChanged e db = db) ∧
    (∀ row : RoleRow, lookupAssoc (e.contractId, e.role) db.roles = some row →
      lookupAssoc (e.contractId, e.role) (handleRoleAdminChanged e db).roles =
        some ⟨some na, row.created_at⟩) := by
  constructor
  · intro hn
    have hu := updateAssoc_of_lookup_none (e.contractId, e.role)
      (fun r : RoleRow => { r with admin_role := some na }) db.roles hn
    simp [handleRoleAdminChanged, h, hu]
  · intro row hr
    simp [handleRoleAdminChanged, h, lookupAssoc_update, hr]

/-- Witness for `admin_changed_update_only`: on an empty database the
concrete admin change is a no-op. -/
theorem admin_changed_update_only_witness :
    c6adminChg.newAdmin = some "NEW_ADMIN" ∧
    handleRoleAdminChanged c6adminChg dbEmpty = dbEmpty :=
  ⟨rfl, (admin_changed_update_only c6adminChg dbEmpty "NEW_ADMIN" rfl).1 rfl⟩

/-! ## processEvent projection lemmas -/

theorem processEvent_some (cid : String) (now : Int) (ev : RawEvent) (db : DBState)
    (p : ParsedEvent) (hp : parseEvent cid ev now = some p) :
    processEvent cid now ev db = applyHandler p (storeEvent p db) := by
  unfold processEvent processEventF
  rw [hp]
  rfl

theorem processEvent_none (cid : String) (now : Int) (ev : RawEvent) (db : DBState)
    (hp : parseEvent cid ev now = none) :
    processEvent cid now ev db = db := by
  unfold processEvent processEventF
  rw [hp]

theorem processEvent_roles (cid : String) (now : Int) (ev : RawEvent) (db : DBState) :
    (processEvent cid now ev db).roles =
      (match parseEvent cid ev now with
        | none => db.roles
        | some p => rolesAfter p db.roles) := by
  cases hp : parseEvent cid ev now with
  | none => rw [processEvent_none cid now ev db hp]
  | some p => rw [processEvent_some cid now ev db p hp, applyHandler_roles, storeEvent_roles]

theorem processEvent_members (cid : String) (now : Int) (ev : RawEvent) (db : DBState) :
    (processEvent cid now ev db).members =
      (match parseEvent cid ev now with
        | none => db.members
        | some p => membersAfter p db.members) := by
  cases hp : parseEvent cid ev now with
  | none => rw [processEvent_none cid now ev db hp]
  | some p => rw [processEvent_some cid now ev db p hp, applyHandler_members, storeEvent_members]

theorem processEvent_events (cid : String) (now : Int) (ev : RawEvent) (db : DBState) :
    (processEvent cid now ev db).events =
      (match parseEvent cid ev now with
        | none => db.events
        | some p => db.events ++ [eventRowOf p]) := by
  cases hp : parseEvent cid ev now with
  | none => rw [processEvent_none cid now ev db hp]
  | some p => rw [processEvent_some cid now ev db p hp, applyHandler_events, storeEvent_events]

theorem processEventF_state (cid : String) (now : Int) (ev : RawEvent) (f : EventFaults)
    (db : DBState) :
    (processEventF cid now ev f db).indexer_state = db.indexer_state := by
  unfold processEventF
  cases hp : parseEvent cid ev now with
  | none => rfl
  | some p =>
      by_cases hs : f.storeFails <;> by_cases hh : f.handlerFails <;>
        simp [hs, hh, storeEvent_state, applyHandler_state]

theorem applyPage_state (cid : String) (now : Int) (evs : List RawEvent)
    (faults : Nat → EventFaults) (db : DBState) :
    (applyPage cid now evs faults db).indexer_state = db.indexer_state := by
  induction evs generalizing faults db with
  | nil => rfl
  | cons e rest ih => simp [applyPage, ih, processEventF_state]

/-! ## C1: checkpoint advancement -/

/-- A raw RoleGranted event whose processing is made to fail. -/
def c1raw : RawEvent :=
  ⟨["RoleGrant", "MINTER", "GACC"], .arr [.num 100, .str "GRANTER"], "tx-1", some 1111, true⟩

/-- The poll environment of the C1 scenario: the fetch succeeds with one
event and `latestLedger = 100`, but the event's audit insert throws. -/
def c1env : PollEnv := ⟨.ok ⟨[c1raw], some 100⟩, fun _ => ⟨true, false⟩, false⟩

/-- The resulting poll outcome of the C1 scenario. -/
def c1result : PollResult := pollContractF "C1" 0 c1env dbEmpty

/-- C1 counterexample: the only event of the page fails entirely (its
insert throws, nothing of it is persisted), yet the checkpoint is advanced
to the response's `latestLedger` — the claim that the checkpoint is not
advanced when applying an event of the page fails, and is never set past a
position whose events have not been applied, is false. -/
theorem checkpoint_advance_counterexample :
    getLastIndexedLedger "C1" c1result.db = some 100 ∧
    c1result.db.events = [] ∧ c1result.db.members = [] ∧ c1result.db.roles = [] := by
  refine ⟨?_, rfl, rfl, rfl⟩
  decide

/-- C1 amended: per-event failures are caught inside `processEvent` and do
not affect checkpointing; whenever the fetch succeeds and reports a
`latestLedger`, and the checkpoint write itself does not throw, the
checkpoint is set to that `latestLedger` (the source's latest position,
not the page's terminal event) after the page loop, regardless of which
events of the page failed to apply.  Only a failed fetch, or a throwing
checkpoint write, leaves the stored checkpoint unchanged. -/
theorem checkpoint_follows_latest_ledger (cid : String) (now : Int) (page : Page)
    (faults : Nat → EventFaults) (db : DBState) (l : Nat)
    (hl : page.latestLedger = some l) :
    pollContractF cid now ⟨.ok page, faults, false⟩ db =
      ⟨false, setLastIndexedLedger cid l (applyPage cid now page.events faults db)⟩ ∧
    (∀ nf : Bool, (pollContractF cid now ⟨.fail nf, faults, false⟩ db).db = db) ∧
    (pollContractF cid now ⟨.ok page, faults, true⟩ db).db.indexer_state =
      db.indexer_state := by
  refine ⟨?_, fun nf => rfl, ?_⟩
  · simp only [pollContractF]
    rw [hl]
    rfl
  · simp only [pollContractF]
    rw [hl]
    simp [applyPage_state]

/-- A page for the `checkpoint_follows_latest_ledger` witness. -/
def c1wPage : Page := ⟨[c1raw], some 77⟩

/-- Witness for `checkpoint_follows_latest_ledger` at a concrete page. -/
theorem checkpoint_follows_latest_ledger_witness :
    c1wPage.latestLedger = some 77 ∧
    pollContractF "CW" 5 ⟨.ok c1wPage, fun _ => noFaults, false⟩ dbEmpty =
      ⟨false, setLastIndexedLedger "CW" 77
        (applyPage "CW" 5 c1wPage.events (fun _ => noFaults) dbEmpty)⟩ :=
  ⟨rfl, (checkpoint_follows_latest_ledger "CW" 5 c1wPage (fun _ => noFaults) dbEmpty 77 rfl).1⟩

/-! ## C4: atomicity of one event's writes -/

/-- A raw RoleGranted event for the C4 scenario. -/
def c4raw : RawEvent :=
  ⟨["RoleGrant", "BURNER", "BACC"], .arr [.num 500, .str "G2"], "tx-4", some 2222, true⟩

/-- The database after the C4 scenario: the audit insert commits, then the
handler's statement throws (caught by `processEvent`). -/
def c4state : DBState := processEventF "C4" 0 c4raw ⟨false, true⟩ dbEmpty

/-- C4 counterexample: the writes of one event are separate auto-committed
statements, not one transaction — after a handler failure the audit row
for the RoleGranted event is observable while `role_members` is unchanged,
so a partial effect of the event is observable, contradicting the claim. -/
theorem partial_event_observable_counterexample :
    c4state.events.length = 1 ∧ c4state.members = [] ∧
    (processEvent "C4" 0 c4raw dbEmpty).members ≠ [] := by
  refine ⟨rfl, rfl, ?_⟩
  decide

/-- C4 amended: `processEvent` issues the audit append and the derived
write as two independently committed statements with no enclosing
transaction; if the handler's statement throws after the audit insert
committed, the resulting state has the audit row appended and the derived
tables untouched — that partial effect is observable. -/
theorem event_writes_not_atomic (cid : String) (now : Int) (ev : RawEvent) (db : DBState)
    (p : ParsedEvent) (hp : parseEvent cid ev now = some p) :
    (processEventF cid now ev ⟨false, true⟩ db).events = db.events ++ [eventRowOf p] ∧
    (processEventF cid now ev ⟨false, true⟩ db).roles = db.roles ∧
    (processEventF cid now ev ⟨false, true⟩ db).members = db.members := by
  unfold processEventF
  rw [hp]
  exact ⟨rfl, rfl, rfl⟩

/-- A raw RoleRevoked event for the `event_writes_not_atomic` witness. -/
def c4wraw : RawEvent :=
  ⟨["RoleRevok", "PAUSER", "PACC"], .str "REVOKER", "tx-4w", some 3333, true⟩

/-- The parse of `c4wraw`. -/
def p4w : ParsedEvent :=
  ⟨"C4W", "RoleRevoked", "PAUSER", some "PACC", none, none, none, none, "tx-4w", 3333⟩

/-- Witness for `event_writes_not_atomic` at a concrete revoke event. -/
theorem event_writes_not_atomic_witness :
    parseEvent "C4W" c4wraw 0 = some p4w ∧
    ((processEventF "C4W" 0 c4wraw ⟨false, true⟩ dbEmpty).events =
        dbEmpty.events ++ [eventRowOf p4w] ∧
      (processEventF "C4W" 0 c4wraw ⟨false, true⟩ dbEmpty).roles = dbEmpty.roles ∧
      (processEventF "C4W" 0 c4wraw ⟨false, true⟩ dbEmpty).members = dbEmpty.members) :=
  ⟨by decide, event_writes_not_atomic "C4W" 0 c4wraw dbEmpty p4w (by decide)⟩

/-! ## C3: replay reconstruction -/

theorem replayAudit_append (rows : List EventRow) (r : EventRow) :
    replayAudit (rows ++ [r]) = applyHandler r.payload (replayAudit rows) := by
  unfold replayAudit
  rw [List.foldl_append]
  rfl

theorem replay_inv (inputs : List ProcInput) (db : DBState)
    (hr : (replayAudit db.events).roles = db.roles)
    (hm : (replayAudit db.events).members = db.members) :
    (replayAudit (runEvents inputs db).events).roles = (runEvents inputs db).roles ∧
    (replayAudit (runEvents inputs db).events).members = (runEvents inputs db).members := by
  induction inputs generalizing db with
  | nil => exact ⟨hr, hm⟩
  | cons i rest ih =>
      have hstep : runEvents (i :: rest) db =
          runEvents rest (processEvent i.contractId i.now i.ev db) := rfl
      rw [hstep]
      cases hp : parseEvent i.contractId i.ev i.now with
      | none =>
          rw [processEvent_none i.contractId i.now i.ev db hp]
          exact ih db hr hm
      | some p =>
          apply ih
          · rw [processEvent_some i.contractId i.now i.ev db p hp, applyHandler_events,
              storeEvent_events, replayAudit_append, applyHandler_roles, applyHandler_roles,
              storeEvent_roles, hr]
            rfl
          · rw [processEvent_some i.contractId i.now i.ev db p hp, applyHandler_events,
              storeEvent_events, replayAudit_append, applyHandler_members, applyHandler_members,
              storeEvent_members, hm]
            rfl

/-- C3 amended: for every state reachable by fault-free processing,
folding the `events` audit log in creation order through the projector's
per-kind handlers, starting from empty derived tables, reproduces the
`roles` and `role_members` tables exactly.  (The unrestricted claim fails:
a storage failure between the audit insert and the derived write — the two
are not one transaction — yields a reachable state that violates it, see
the counterexample.) -/
theorem replay_reconstructs (inputs : List ProcInput) :
    (replayAudit (runEvents inputs dbEmpty).events).roles =
      (runEvents inputs dbEmpty).roles ∧
    (replayAudit (runEvents inputs dbEmpty).events).members =
      (runEvents inputs dbEmpty).members :=
  replay_inv inputs dbEmpty rfl rfl

/-- A raw RoleGranted event for the C3 counterexample. -/
def c3raw : RawEvent :=
  ⟨["RoleGrant", "ADMIN", "AACC"], .arr [.num 42, .str "G3"], "tx-3", some 4444, true⟩

/-- The database reached when the audit insert of `c3raw` commits but the
handler's statement throws. -/
def c3state : DBState := processEventF "C3" 0 c3raw ⟨false, true⟩ dbEmpty

/-- C3 counterexample: a reachable state (audit insert committed, handler
write failed and swallowed) whose audit-log replay does not reproduce the
current `role_members` table — replay yields the granted membership, the
table is empty. -/
theorem replay_mismatch_counterexample :
    (replayAudit c3state.events).members ≠ c3state.members := by
  decide

/-! ## C7: retry scope and backoff -/

/-- The backoff sleeps `pollWithRetry` performs when every attempt fails:
one sleep after each failed attempt except the last. -/
def failBackoffs : Nat → Nat → List Nat
  | _, 0 => []
  | _, 1 => []
  | attempt, r + 2 => backoffMs attempt :: failBackoffs (attempt + 1) (r + 1)

theorem pollRetryLoop_all_fail (cid : String) (now : Int) (envs : Nat → PollEnv)
    (h : ∀ a, (envs a).fetch = FetchResult.fail false) :
    ∀ (remaining attempt : Nat) (db : DBState),
      pollRetryLoop cid now envs attempt remaining db =
        ⟨db, attempt + remaining - 1, failBackoffs attempt remaining⟩ := by
  intro remaining
  induction remaining with
  | zero => intro attempt db; rfl
  | succ r ih =>
      intro attempt db
      have hpc : pollContractF cid now (envs attempt) db = ⟨true, db⟩ := by
        unfold pollContractF
        rw [h attempt]
        rfl
      simp only [pollRetryLoop, hpc]
      cases r with
      | zero => simp [failBackoffs]
      | succ r2 =>
          rw [ih (attempt + 1) db]
          have harith : attempt + 1 + (r2 + 1) - 1 = attempt + (r2 + 1 + 1) - 1 := by omega
          simp only [Nat.succ_ne_zero, if_false, harith, failBackoffs, if_true]

/-- C7 amended: a thrown `pollContract` attempt is retried up to 3 attempts
with doubling backoffs of 1000 ms and 2000 ms between attempts, and
exhausting the retries skips the contract for this cycle without crash and
without touching the database — but the retry re-invokes the *whole*
`pollContract` (fetch, apply, checkpoint), not just the fetch: when the
fetch itself failed nothing was applied, so the retry is effectively
fetch-only, while a throwing checkpoint write after a fully applied page
re-fetches and re-applies the page within the same cycle (see the
counterexample). -/
theorem retry_fetch_exhaustion (cid : String) (now : Int) (envs : Nat → PollEnv)
    (db : DBState) (h : ∀ a, (envs a).fetch = FetchResult.fail false) :
    pollWithRetryF cid now envs db 3 = ⟨db, 3, [1000, 2000]⟩ := by
  unfold pollWithRetryF
  rw [pollRetryLoop_all_fail cid now envs h 3 1 db]
  rfl

/-- An environment whose fetch always throws a non-`'not found'` error. -/
def c7failEnvs : Nat → PollEnv := fun _ => ⟨.fail false, fun _ => noFaults, false⟩

/-- Witness for `retry_fetch_exhaustion` at a concrete environment. -/
theorem retry_fetch_exhaustion_witness :
    pollWithRetryF "C7W" 0 c7failEnvs dbEmpty 3 = ⟨dbEmpty, 3, [1000, 2000]⟩ :=
  retry_fetch_exhaustion "C7W" 0 c7failEnvs dbEmpty (fun _ => rfl)

/-- A raw RoleGranted event for the C7 counterexample. -/
def c7raw : RawEvent :=
  ⟨["RoleGrant", "OPR", "OACC"], .arr [.num 9, .str "G7"], "tx-7", some 7777, true⟩

/-- The page fetched by both attempts of the C7 counterexample. -/
def c7page : Page := ⟨[c7raw], some 50⟩

/-- The C7 environments: attempt 1 applies the page but the checkpoint
write throws; attempt 2 re-fetches the same page (the checkpoint never
moved) and succeeds. -/
def c7envs : Nat → PollEnv := fun a =>
  if a = 1 then ⟨.ok c7page, fun _ => noFaults, true⟩
  else ⟨.ok c7page, fun _ => noFaults, false⟩

/-- The outcome of one `pollWithRetry` cycle in the C7 scenario. -/
def c7run : RetryResult := pollWithRetryF "C7" 0 c7envs dbEmpty 3

/-- C7 counterexample: within a single `pollWithRetry` call the apply step
runs twice — the page's only event is stored (and its handler applied) on
both attempts, leaving two audit rows — so the claim that the apply and
checkpoint steps are never re-executed as part of a retry is false. -/
theorem retry_reapplies_page_counterexample :
    c7run.attempts = 2 ∧ c7run.db.events.length = 2 ∧ c7run.backoffs = [1000] := by
  refine ⟨rfl, rfl, ?_⟩
  decide

/-! ## C8 and C10: unknown event tags -/

/-- The five canonical event kinds the `processEvent` switch handles. -/
abbrev isKnownKind (t : String) : Prop :=
  t = "RoleCreated" ∨ t = "RoleGranted" ∨ t = "RoleRevoked" ∨
    t = "RoleAdminChanged" ∨ t = "RoleExpired"

theorem typeMap_known (tag t : String) (h : typeMap tag = some t) : isKnownKind t := by
  unfold typeMap at h
  split_ifs at h <;> simp_all [isKnownKind]

theorem parseEvent_eventType (cid : String) (ev : RawEvent) (now : Int) (p : ParsedEvent)
    (hp : parseEvent cid ev now = some p) :
    p.eventType =
      (match typeMap (topic0Str ev) with
        | some t => t
        | none => topic0Str ev) := by
  unfold parseEvent at hp
  cases hd : ev.decodeOk with
  | false => rw [hd] at hp; simp at hp
  | true =>
      rw [hd] at hp
      simp only [Bool.not_true, Bool.false_eq_true, if_false, Option.some.injEq] at hp
      rw [← hp]

theorem parseEvent_unknown_raw_tag (cid : String) (ev : RawEvent) (now : Int)
    (p : ParsedEvent) (hp : parseEvent cid ev now = some p)
    (h : ¬ isKnownKind p.eventType) :
    p.eventType = topic0Str ev := by
  have he := parseEvent_eventType cid ev now p hp
  cases ht : typeMap (topic0Str ev) with
  | none => rw [he, ht]
  | some t =>
      rw [ht] at he
      exact absurd (he ▸ typeMap_known (topic0Str ev) t ht) h

theorem rolesAfter_unknown (p : ParsedEvent) (rs : RolesTable)
    (h : ¬ isKnownKind p.eventType) : rolesAfter p rs = rs := by
  simp only [isKnownKind, not_or] at h
  obtain ⟨h1, h2, h3, h4, h5⟩ := h
  unfold rolesAfter
  rw [if_neg h1, if_neg h4]

theorem membersAfter_unknown (p : ParsedEvent) (ms : MembersTable)
    (h : ¬ isKnownKind p.eventType) : membersAfter p ms = ms := by
  simp only [isKnownKind, not_or] at h
  obtain ⟨h1, h2, h3, h4, h5⟩ := h
  unfold membersAfter
  rw [if_neg h2, if_neg h3, if_neg h5]

/-- C8 amended: a raw event whose *effective* type — the abbreviation
mapping's output when the tag is one of the five abbreviations, otherwise
the raw tag itself — is none of the five canonical kinds leaves `roles`
and `role_members` unchanged, raises no error, and does not prevent any
subsequent event from being applied.  (The original claim, quantified over
tags outside the five *abbreviated* tags only, is false: an unmapped tag
falls through unchanged and the switch matches the canonical full names,
see the counterexample.) -/
theorem unknown_kind_inert (cid : String) (now : Int) (ev : RawEvent) (db : DBState)
    (p : ParsedEvent) (hp : parseEvent cid ev now = some p)
    (h : ¬ isKnownKind p.eventType) :
    (processEvent cid now ev db).roles = db.roles ∧
    (processEvent cid now ev db).members = db.members ∧
    (∀ (cid2 : String) (now2 : Int) (ev2 : RawEvent),
      (processEvent cid2 now2 ev2 (processEvent cid now ev db)).roles =
        (processEvent cid2 now2 ev2 db).roles ∧
      (processEvent cid2 now2 ev2 (processEvent cid now ev db)).members =
        (processEvent cid2 now2 ev2 db).members) := by
  have hx : (processEvent cid now ev db).roles = db.roles := by
    rw [processEvent_roles, hp]
    exact rolesAfter_unknown p db.roles h
  have hy : (processEvent cid now ev db).members = db.members := by
    rw [processEvent_members, hp]
    exact membersAfter_unknown p db.members h
  refine ⟨hx, hy, fun cid2 now2 ev2 => ⟨?_, ?_⟩⟩
  · rw [processEvent_roles cid2 now2 ev2 (processEvent cid now ev db), hx,
      processEvent_roles cid2 now2 ev2 db]
  · rw [processEvent_members cid2 now2 ev2 (processEvent cid now ev db), hy,
      processEvent_members cid2 now2 ev2 db]

/-- A raw event with the unrecognized tag `Mystery`. -/
def c8wraw : RawEvent := ⟨["Mystery", "R", "A"], .str "payload", "tx-8w", some 1, true⟩

/-- The parse of `c8wraw`. -/
def p8w : ParsedEvent :=
  ⟨"C8W", "Mystery", "R", some "A", none, none, none, none, "tx-8w", 1⟩

/-- Witness for `unknown_kind_inert` at the concrete `Mystery` event. -/
theorem unknown_kind_inert_witness :
    parseEvent "C8W" c8wraw 0 = some p8w ∧ ¬ isKnownKind p8w.eventType ∧
    (processEvent "C8W" 0 c8wraw dbEmpty).roles = dbEmpty.roles ∧
    (processEvent "C8W" 0 c8wraw dbEmpty).members = dbEmpty.members :=
  ⟨by decide, by decide,
    (unknown_kind_inert "C8W" 0 c8wraw dbEmpty p8w (by decide) (by decide)).1,
    (unknown_kind_inert "C8W" 0 c8wraw dbEmpty p8w (by decide) (by decide)).2.1⟩

/-- A raw event whose tag is the canonical full name `RoleGranted`, which
is not one of the five abbreviated tags. -/
def c8raw : RawEvent :=
  ⟨["RoleGranted", "MGR", "MACC"], .arr [.num 8, .str "G8"], "tx-8", some 88, true⟩

/-- C8 counterexample: the tag `RoleGranted` is not one of the five known
abbreviated tags (`typeMap` does not map it), yet processing the event
changes `role_members` — the unmapped tag falls through `typeMap` unchanged
and matches the switch's canonical case. -/
theorem full_name_tag_processed_counterexample :
    typeMap "RoleGranted" = none ∧
    (processEvent "C8" 0 c8raw dbEmpty).members =
      [(("C8", "MGR", "MACC"), ⟨8, 88⟩)] := by
  exact ⟨rfl, rfl⟩

/-- C10: every decodable raw event whose type is not recognized as one of
the five kinds is still appended to the `events` audit table, with the raw
(unmapped) `topic[0]` tag stored as its event type, while the derived
tables are unchanged. -/
theorem unknown_tag_logged (cid : String) (now : Int) (ev : RawEvent) (db : DBState)
    (p : ParsedEvent) (hp : parseEvent cid ev now = some p)
    (h : ¬ isKnownKind p.eventType) :
    (processEvent cid now ev db).events = db.events ++ [eventRowOf p] ∧
    (eventRowOf p).event_type = topic0Str ev ∧
    (processEvent cid now ev db).roles = db.roles ∧
    (processEvent cid now ev db).members = db.members := by
  refine ⟨?_, ?_, ?_, ?_⟩
  · rw [processEvent_events, hp]
  · exact parseEvent_unknown_raw_tag cid ev now p hp h
  · rw [processEvent_roles, hp]
    exact rolesAfter_unknown p db.roles h
  · rw [processEvent_members, hp]
    exact membersAfter_unknown p db.members h

/-- A raw event with the unrecognized tag `SomethingNew`. -/
def c10wraw : RawEvent :=
  ⟨["SomethingNew", "ROLE10", "ACC10"], .num 3, "tx-10", some 5, true⟩

/-- The parse of `c10wraw`. -/
def p10w : ParsedEvent :=
  ⟨"C10W", "SomethingNew", "ROLE10", some "ACC10", none, none, none, none, "tx-10", 5⟩

/-- Witness for `unknown_tag_logged` at the concrete `SomethingNew` event. -/
theorem unknown_tag_logged_witness :
    parseEvent "C10W" c10wraw 0 = some p10w ∧ ¬ isKnownKind p10w.eventType ∧
    (processEvent "C10W" 0 c10wraw dbEmpty).events =
      dbEmpty.events ++ [eventRowOf p10w] ∧
    (eventRowOf p10w).event_type = topic0Str c10wraw :=
  ⟨by decide, by decide,
    (unknown_tag_logged "C10W" 0 c10wraw dbEmpty p10w (by decide) (by decide)).1,
    (unknown_tag_logged "C10W" 0 c10wraw dbEmpty p10w (by decide) (by decide)).2.1⟩

end Keystone
